import Mathlib

/-!
# Grid trading backtest engine: a shallow embedding

This file embeds the core of `src/bot.py`, a grid-trading backtest script:

* grid level generation (`gridLevels`, source lines 60–65), which repeatedly
  adds `GRID_SPACING` to `LOWER_BOUND`, appending `round(level, 4)` while the
  running value stays at or below `UPPER_BOUND`;
* the simulation loop (source lines 67–96): per tick, a SELL phase iterating
  over a copy of `open_positions` and removing each position whose
  `buy_price + GRID_SPACING <= price`, then a BUY phase scanning grid levels
  in order and opening a position at the first unoccupied level with
  `price <= level`;
* the `GRID_SPACING <= 0` guard (source lines 32–35), modelled as an
  `Except` error.

Prices and amounts are embedded as rationals (`ℚ`); Python's `round`
(banker's rounding, round half to even) is modelled exactly by `roundHE`.
Timestamps are embedded as naturals; only their identity matters to the
engine.
-/

namespace GridBot

/-- Round a rational to the nearest integer, ties to even
(the semantics of Python's builtin `round`). -/
def roundHE (q : ℚ) : ℤ :=
  if q - ⌊q⌋ < 1/2 then ⌊q⌋
  else if 1/2 < q - ⌊q⌋ then ⌊q⌋ + 1
  else if Even ⌊q⌋ then ⌊q⌋ else ⌊q⌋ + 1

/-- `round(x, 4)` of the source: round to 4 fractional decimal digits. -/
def round4 (q : ℚ) : ℚ := (roundHE (q * 10000) : ℚ) / 10000

/-- Number of iterations of the grid-generation `while` loop of
`src/bot.py` lines 62–65: starting at `lower`, step `spacing`, the loop
body runs once for each `i` with `lower + i * spacing ≤ upper`.  For
`spacing ≤ 0` the guarded source never reaches this loop; we define the
count as `0` there. -/
def numSteps (lower upper spacing : ℚ) : ℕ :=
  if 0 < spacing ∧ lower ≤ upper then (⌊(upper - lower) / spacing⌋).toNat + 1
  else 0

/-- The grid levels of `src/bot.py` lines 60–65: the `i`-th appended value is
`round(lower + i*spacing, 4)`; iteration continues while the unrounded
running value is `≤ upper`.  (In exact rational arithmetic, repeatedly
adding `spacing` and computing `lower + i*spacing` coincide.) -/
def gridLevels (lower upper spacing : ℚ) : List ℚ :=
  (List.range (numSteps lower upper spacing)).map
    (fun i : ℕ => round4 (lower + (i : ℚ) * spacing))

/-- An open position, `src/bot.py` lines 90–94:
`{'buy_price': level, 'amount': TRADE_AMOUNT_USDT, 'timestamp': now}`. -/
structure Position where
  buy_price : ℚ
  amount : ℚ
  timestamp : ℕ
deriving DecidableEq, Repr

/-- Trade action tag: the `'BUY'` / `'SELL'` strings of the source log. -/
inductive Action where
  | BUY
  | SELL
deriving DecidableEq, Repr

/-- One row of `trade_log`: `[now, action, price, amount-or-profit]`
(`src/bot.py` lines 84 and 95). -/
structure TradeEvent where
  time : ℕ
  action : Action
  price : ℚ
  value : ℚ
deriving DecidableEq, Repr

/-- The mutable simulation state of `src/bot.py` lines 68–70:
`open_positions`, `trade_log`, `total_profit`. -/
structure SimState where
  open_positions : List Position
  trade_log : List TradeEvent
  total_profit : ℚ
deriving DecidableEq, Repr

/-- `is_already_bought(level)` of `src/bot.py` lines 72–73:
`any(pos['buy_price'] == level for pos in open_positions)`. -/
def is_already_bought (open_positions : List Position) (level : ℚ) : Bool :=
  open_positions.any (fun pos => pos.buy_price == level)

/-- One iteration of the SELL loop body (`src/bot.py` lines 79–85) for the
snapshot element `position`: if `price >= position.buy_price + spacing`,
record the profit, append a SELL event and remove the position from the
live list. -/
def sellStep (spacing trade_amount : ℚ) (now : ℕ) (price : ℚ)
    (acc : SimState) (position : Position) : SimState :=
  let sell_price := position.buy_price + spacing
  if sell_price ≤ price then
    let profit := spacing * trade_amount / position.buy_price
    { open_positions := acc.open_positions.erase position
      trade_log := acc.trade_log ++ [⟨now, Action.SELL, sell_price, profit⟩]
      total_profit := acc.total_profit + profit }
  else acc

/-- The SELL simulation block of a tick (`src/bot.py` lines 78–85):
iterate over a copy (`open_positions[:]`) of the pre-phase position list,
mutating the live state. -/
def sellPhase (spacing trade_amount : ℚ) (now : ℕ) (price : ℚ)
    (st : SimState) : SimState :=
  st.open_positions.foldl (sellStep spacing trade_amount now price) st

/-- The BUY simulation block of a tick (`src/bot.py` lines 87–96): scan
`grid_levels` in order; at the first level with `price <= level` that is not
already bought, open a position, append a BUY event, and `break`. -/
def buyPhase (trade_amount : ℚ) (now : ℕ) (price : ℚ)
    (grid_levels : List ℚ) (st : SimState) : SimState :=
  match grid_levels.find?
      (fun level => decide (price ≤ level) && !is_already_bought st.open_positions level) with
  | some level =>
      { open_positions := st.open_positions ++ [⟨level, trade_amount, now⟩]
        trade_log := st.trade_log ++ [⟨now, Action.BUY, level, trade_amount⟩]
        total_profit := st.total_profit }
  | none => st

/-- One tick of the simulation loop (`src/bot.py` lines 75–96): the SELL
block, then the BUY block. -/
def tick (spacing trade_amount : ℚ) (grid_levels : List ℚ)
    (st : SimState) (tp : ℕ × ℚ) : SimState :=
  buyPhase trade_amount tp.1 tp.2 grid_levels
    (sellPhase spacing trade_amount tp.1 tp.2 st)

/-- The whole simulation (`src/bot.py` lines 67–96): fold the tick over the
price series, starting from empty positions, empty log, zero profit. -/
def simulate (spacing trade_amount : ℚ) (grid_levels : List ℚ)
    (prices : List (ℕ × ℚ)) : SimState :=
  prices.foldl (tick spacing trade_amount grid_levels) ⟨[], [], 0⟩

/-- The program's configuration failure: `st.error("Grid Spacing must be
greater than 0.")` at `src/bot.py` lines 33–34. -/
inductive ConfigError where
  | InvalidConfiguration
deriving DecidableEq, Repr

/-- The guarded run (`src/bot.py` lines 32–96): reject `GRID_SPACING <= 0`
before building the grid or processing any tick; otherwise build the grid
and run the simulation. -/
def runBot (lower upper spacing trade_amount : ℚ)
    (prices : List (ℕ × ℚ)) : Except ConfigError SimState :=
  if spacing ≤ 0 then Except.error ConfigError.InvalidConfiguration
  else Except.ok (simulate spacing trade_amount (gridLevels lower upper spacing) prices)

/-- The SELL eligibility test of a tick, as a Boolean predicate on a
position: `price >= position.buy_price + spacing` (`src/bot.py` line 81). -/
def eligible (spacing price : ℚ) (pos : Position) : Bool :=
  decide (pos.buy_price + spacing ≤ price)

/-- The SELL event appended for a closed position (`src/bot.py` line 84). -/
def sellEvent (spacing trade_amount : ℚ) (now : ℕ) (pos : Position) : TradeEvent :=
  ⟨now, Action.SELL, pos.buy_price + spacing, spacing * trade_amount / pos.buy_price⟩

/-- The realized profit of a closed position (`src/bot.py` line 82). -/
def posProfit (spacing trade_amount : ℚ) (pos : Position) : ℚ :=
  spacing * trade_amount / pos.buy_price

/-- Unrolling the SELL loop: iterating the snapshot `l` while the live list
is `pre ++ l` (with every element of `pre` ineligible, `pre` being the
already-visited survivors) removes exactly the eligible snapshot elements,
appends their SELL events in snapshot order, and accumulates their profits. -/
lemma sell_foldl_eq (s a : ℚ) (now : ℕ) (p : ℚ) (l : List Position) :
    ∀ (pre : List Position) (log : List TradeEvent) (profit : ℚ),
      (∀ q ∈ pre, eligible s p q = false) →
      l.foldl (sellStep s a now p) ⟨pre ++ l, log, profit⟩ =
        ⟨pre ++ l.filter (fun pos => !eligible s p pos),
         log ++ (l.filter (eligible s p)).map (sellEvent s a now),
         profit + ((l.filter (eligible s p)).map (posProfit s a)).sum⟩ := by
  induction l with
  | nil => intro pre log profit _; simp
  | cons pos t ih =>
    intro pre log profit hpre
    by_cases h : pos.buy_price + s ≤ p
    · have hpos : pos ∉ pre := by
        intro hmem
        have := hpre pos hmem
        simp [eligible, h] at this
      have hstep : sellStep s a now p ⟨pre ++ pos :: t, log, profit⟩ pos
          = ⟨pre ++ t, log ++ [sellEvent s a now pos], profit + posProfit s a pos⟩ := by
        simp only [sellStep, if_pos h, sellEvent, posProfit]
        rw [List.erase_append_right _ hpos, List.erase_cons_head]
      rw [List.foldl_cons, hstep, ih pre _ _ hpre]
      simp [List.filter_cons, eligible, h, add_assoc]
    · have hstep : sellStep s a now p ⟨pre ++ pos :: t, log, profit⟩ pos
          = ⟨pre ++ pos :: t, log, profit⟩ := by
        simp only [sellStep, if_neg h]
      have hpre' : ∀ q ∈ pre ++ [pos], eligible s p q = false := by
        intro q hq
        rcases List.mem_append.1 hq with hq | hq
        · exact hpre q hq
        · have : q = pos := by simpa using hq
          simp [this, eligible, h]
      rw [List.foldl_cons, hstep,
        show pre ++ pos :: t = (pre ++ [pos]) ++ t by simp, ih _ _ _ hpre']
      simp [List.filter_cons, eligible, h]

/-- The SELL block of a tick removes exactly the positions eligible against
the pre-phase book, appends their SELL events in insertion order, and adds
their profits. -/
lemma sellPhase_eq (s a : ℚ) (now : ℕ) (p : ℚ) (st : SimState) :
    sellPhase s a now p st =
      ⟨st.open_positions.filter (fun pos => !eligible s p pos),
       st.trade_log ++ (st.open_positions.filter (eligible s p)).map (sellEvent s a now),
       st.total_profit + ((st.open_positions.filter (eligible s p)).map (posProfit s a)).sum⟩ := by
  obtain ⟨ops, log, profit⟩ := st
  have h := sell_foldl_eq s a now p ops [] log profit (by simp)
  simpa [sellPhase] using h

/-- `find?` returns the first element satisfying the predicate. -/
lemma find?_first {α : Type} (q : α → Bool) (as : List α) (x : α) (bs : List α)
    (has : ∀ y ∈ as, q y = false) (hx : q x = true) :
    (as ++ x :: bs).find? q = some x := by
  induction as with
  | nil => simpa using List.find?_cons_of_pos _ hx
  | cons a as ih =>
    have ha : ¬ q a = true := by simp [has a (by simp)]
    rw [List.cons_append, List.find?_cons_of_neg _ ha]
    exact ih (fun y hy => has y (by simp [hy]))

/-- **C5.** The sell phase of a tick removes exactly those open positions
whose `buy_price + spacing ≤ price`, with eligibility evaluated against the
pre-call state of the book (the filter runs over the pre-phase position
list, so removals cannot affect which positions are evaluated), and the
closed positions are logged in insertion order among the eligible ones. -/
theorem c5_close_eligible (s a : ℚ) (now : ℕ) (p : ℚ) (st : SimState) :
    (sellPhase s a now p st).open_positions
        = st.open_positions.filter (fun pos => !decide (pos.buy_price + s ≤ p)) ∧
    (sellPhase s a now p st).trade_log
        = st.trade_log
          ++ (st.open_positions.filter (fun pos => decide (pos.buy_price + s ≤ p))).map
              (fun pos => ⟨now, Action.SELL, pos.buy_price + s, s * a / pos.buy_price⟩) ∧
    (sellPhase s a now p st).total_profit
        = st.total_profit
          + ((st.open_positions.filter (fun pos => decide (pos.buy_price + s ≤ p))).map
              (fun pos => s * a / pos.buy_price)).sum := by
  rw [sellPhase_eq]
  exact ⟨rfl, rfl, rfl⟩

/-- Number of BUY events in a trade log. -/
def countBuy (log : List TradeEvent) : ℕ :=
  (log.filter (fun e => e.action == Action.BUY)).length

/-- The sell phase appends only SELL events, so it never changes the BUY
count of the log. -/
lemma countBuy_sellPhase (s a : ℚ) (now : ℕ) (p : ℚ) (st : SimState) :
    countBuy (sellPhase s a now p st).trade_log = countBuy st.trade_log := by
  rw [sellPhase_eq]
  simp [countBuy, List.filter_append, List.filter_map, sellEvent, Function.comp_def]

/-- The Boolean buy condition scanned over the grid levels
(`src/bot.py` line 89). -/
def buyCond (open_positions : List Position) (price level : ℚ) : Bool :=
  decide (price ≤ level) && !is_already_bought open_positions level

/-- The buy condition holds iff the price is at or below the level and the
level is unoccupied. -/
lemma buyCond_eq_true (ops : List Position) (p l : ℚ) :
    buyCond ops p l = true ↔ (p ≤ l ∧ is_already_bought ops l = false) := by
  simp [buyCond, Bool.and_eq_true, decide_eq_true_eq, Bool.not_eq_true']

/-- **C1.** Within a tick, the sell phase runs before the buy phase; the buy
phase opens a position at the first grid level (scanning in list order) that
the price is at or below and that is unoccupied in the post-sell book,
appending exactly one BUY event, and appends none when no level qualifies;
hence at most one BUY event is added per tick; and any level vacated by the
tick's sell phase is unoccupied in the book the buy phase consults, hence
eligible for re-buy in the same tick. -/
theorem c1_tick_structure (s a : ℚ) (levels : List ℚ) (st : SimState) (t : ℕ) (p : ℚ) :
    tick s a levels st (t, p) = buyPhase a t p levels (sellPhase s a t p st) ∧
    ((∀ l ∈ levels, ¬(p ≤ l ∧ is_already_bought (sellPhase s a t p st).open_positions l = false)) →
      tick s a levels st (t, p) = sellPhase s a t p st) ∧
    (∀ pre L post, levels = pre ++ L :: post → p ≤ L →
      is_already_bought (sellPhase s a t p st).open_positions L = false →
      (∀ l ∈ pre, ¬(p ≤ l ∧ is_already_bought (sellPhase s a t p st).open_positions l = false)) →
      (tick s a levels st (t, p)).trade_log
          = (sellPhase s a t p st).trade_log ++ [⟨t, Action.BUY, L, a⟩] ∧
      (tick s a levels st (t, p)).open_positions
          = (sellPhase s a t p st).open_positions ++ [⟨L, a, t⟩]) ∧
    countBuy (tick s a levels st (t, p)).trade_log ≤ countBuy st.trade_log + 1 ∧
    (∀ pos ∈ st.open_positions, pos.buy_price + s ≤ p →
      is_already_bought (sellPhase s a t p st).open_positions pos.buy_price = false) := by
  set st1 := sellPhase s a t p st with hst1
  refine ⟨rfl, ?_, ?_, ?_, ?_⟩
  · intro hnone
    have hfind : levels.find? (fun level => buyCond st1.open_positions p level) = none := by
      rw [List.find?_eq_none]
      intro l hl
      exact fun hq => hnone l hl ((buyCond_eq_true _ _ _).1 hq)
    show buyPhase a t p levels st1 = st1
    simp only [buyPhase, buyCond] at hfind ⊢
    rw [hfind]
  · intro pre L post hlv hpL hunocc hpre
    have hfind : levels.find? (fun level => buyCond st1.open_positions p level) = some L := by
      rw [hlv]
      refine find?_first _ pre L post (fun y hy => ?_) ((buyCond_eq_true _ _ _).2 ⟨hpL, hunocc⟩)
      have := hpre y hy
      rcases Bool.eq_false_or_eq_true (buyCond st1.open_positions p y) with h | h
      · exact absurd ((buyCond_eq_true _ _ _).1 h) this
      · exact h
    show (buyPhase a t p levels st1).trade_log = _ ∧ (buyPhase a t p levels st1).open_positions = _
    simp only [buyPhase, buyCond] at hfind ⊢
    rw [hfind]
    exact ⟨rfl, rfl⟩
  · show countBuy (buyPhase a t p levels st1).trade_log ≤ countBuy st.trade_log + 1
    have hsell : countBuy st1.trade_log = countBuy st.trade_log := countBuy_sellPhase s a t p st
    simp only [buyPhase]
    cases hf : levels.find?
        (fun level => decide (p ≤ level) && !is_already_bought st1.open_positions level) with
    | none => simp [hsell]
    | some L =>
      simp only [countBuy] at hsell ⊢
      simp [List.filter_append, hsell]
  · intro pos _ hel
    rw [hst1, sellPhase_eq]
    simp only [is_already_bought, List.any_eq_false]
    intro q hq
    simp only [List.mem_filter, Bool.not_eq_true', eligible, decide_eq_false_iff_not] at hq
    intro hbeq
    rw [beq_iff_eq] at hbeq
    exact hq.2 (hbeq ▸ hel)

/-- Witness for `c1_tick_structure`: at spacing 1/500, amount 100, grid
`[4/25]`, empty book, tick price 159/1000, the buy phase appends exactly the
BUY event at level 4/25. -/
theorem c1_tick_structure_witness :
    (tick (1/500) 100 [4/25] ⟨[], [], 0⟩ (0, 159/1000)).trade_log
        = (sellPhase (1/500) 100 0 (159/1000) ⟨[], [], 0⟩).trade_log
          ++ [⟨0, Action.BUY, 4/25, 100⟩] ∧
    (tick (1/500) 100 [4/25] ⟨[], [], 0⟩ (0, 159/1000)).open_positions
        = (sellPhase (1/500) 100 0 (159/1000) ⟨[], [], 0⟩).open_positions
          ++ [⟨4/25, 100, 0⟩] :=
  (c1_tick_structure (1/500) 100 [4/25] ⟨[], [], 0⟩ 0 (159/1000)).2.2.1 [] (4/25) []
    rfl (by norm_num) (by with_unfolding_all rfl) (by simp)

/-- Sum of the values of the SELL events of a trade log. -/
def sellSum (log : List TradeEvent) : ℚ :=
  ((log.filter (fun e => e.action == Action.SELL)).map TradeEvent.value).sum

/-- The profit bookkeeping invariant: `total_profit` is the sum of the SELL
values of the log, and every SELL event's value is
`spacing * trade_amount / buy_price` where `buy_price = price - spacing`. -/
def ProfitInv (s a : ℚ) (st : SimState) : Prop :=
  st.total_profit = sellSum st.trade_log ∧
  ∀ e ∈ st.trade_log, e.action = Action.SELL → e.value = s * a / (e.price - s)

/-- A tick preserves the profit bookkeeping invariant. -/
lemma profitInv_tick (s a : ℚ) (levels : List ℚ) (st : SimState) (tp : ℕ × ℚ)
    (h : ProfitInv s a st) : ProfitInv s a (tick s a levels st tp) := by
  obtain ⟨h1, h2⟩ := h
  obtain ⟨t, p⟩ := tp
  have hsell : ProfitInv s a (sellPhase s a t p st) := by
    rw [sellPhase_eq]
    constructor
    · simp only [sellSum, List.filter_append, List.map_append, List.sum_append,
        List.filter_map, Function.comp_def, sellEvent]
      simp only [sellSum] at h1
      simp [h1, posProfit, sellEvent, Function.comp_def]
      rfl
    · intro e he hsel
      rcases List.mem_append.1 he with he | he
      · exact h2 e he hsel
      · obtain ⟨pos, _, rfl⟩ := List.mem_map.1 he
        simp [sellEvent, posProfit]
  rcases hsell with ⟨g1, g2⟩
  set st1 := sellPhase s a t p st
  show ProfitInv s a (buyPhase a t p levels st1)
  simp only [buyPhase]
  cases hf : levels.find?
      (fun level => decide (p ≤ level) && !is_already_bought st1.open_positions level) with
  | none => exact ⟨g1, g2⟩
  | some L =>
    constructor
    · simp [sellSum, List.filter_append] at g1 ⊢
      exact g1
    · intro e he hsel
      rcases List.mem_append.1 he with he | he
      · exact g2 e he hsel
      · simp only [List.mem_singleton] at he
        subst he
        simp at hsel

/-- The simulation fold preserves the profit bookkeeping invariant. -/
lemma profitInv_fold (s a : ℚ) (levels : List ℚ) (prices : List (ℕ × ℚ)) :
    ∀ st : SimState, ProfitInv s a st →
      ProfitInv s a (prices.foldl (tick s a levels) st) := by
  induction prices with
  | nil => exact fun st h => h
  | cons tp rest ih =>
    intro st h
    exact ih _ (profitInv_tick s a levels st tp h)

/-- **C2.** Every SELL event of a run records profit
`spacing * trade_amount / buy_price` for the position it closes (the
position's `buy_price` being the event's recorded price minus the spacing),
and the final `total_profit` is the sum of the values of all SELL events in
the trade log. -/
theorem c2_profit_formula (s a : ℚ) (levels : List ℚ) (prices : List (ℕ × ℚ)) :
    (∀ e ∈ (simulate s a levels prices).trade_log, e.action = Action.SELL →
      e.value = s * a / (e.price - s)) ∧
    (simulate s a levels prices).total_profit
      = (((simulate s a levels prices).trade_log.filter
          (fun e => e.action == Action.SELL)).map TradeEvent.value).sum := by
  have h := profitInv_fold s a levels prices ⟨[], [], 0⟩ (by constructor <;> simp [sellSum])
  exact ⟨h.2, h.1⟩

set_option maxRecDepth 4000 in
/-- Witness for `c2_profit_formula`: in the run with spacing 1/500, amount
100, grid `[16/100]`, prices 159/1000 then 163/1000, the SELL event at
price 81/500 records profit `(1/500) * 100 / (81/500 - 1/500) = 5/4`. -/
theorem c2_profit_formula_witness :
    (⟨1, Action.SELL, 81/500, 5/4⟩ : TradeEvent).value
      = (1/500) * 100 / ((⟨1, Action.SELL, 81/500, 5/4⟩ : TradeEvent).price - 1/500) :=
  (c2_profit_formula (1/500) 100 [16/100] [(0, 159/1000), (1, 163/1000)]).1
    ⟨1, Action.SELL, 81/500, 5/4⟩ (by with_unfolding_all decide) rfl

/-- The occupancy invariant: no two open positions share a `buy_price`. -/
def OccInv (st : SimState) : Prop :=
  (st.open_positions.map Position.buy_price).Nodup

/-- The sell phase only removes positions, so it preserves occupancy. -/
lemma occInv_sellPhase (s a : ℚ) (now : ℕ) (p : ℚ) (st : SimState)
    (h : OccInv st) : OccInv (sellPhase s a now p st) := by
  rw [OccInv, sellPhase_eq]
  exact ((List.filter_sublist _).map Position.buy_price).nodup h

/-- The buy phase only opens a position at a level the occupancy check found
free, so it preserves occupancy. -/
lemma occInv_buyPhase (a : ℚ) (now : ℕ) (p : ℚ) (levels : List ℚ) (st : SimState)
    (h : OccInv st) : OccInv (buyPhase a now p levels st) := by
  rw [OccInv, buyPhase]
  cases hf : levels.find?
      (fun level => decide (p ≤ level) && !is_already_bought st.open_positions level) with
  | none => exact h
  | some L =>
    have hL : is_already_bought st.open_positions L = false := by
      have := List.find?_some hf
      simp only [Bool.and_eq_true, Bool.not_eq_true'] at this
      exact this.2
    have hnot : L ∉ st.open_positions.map Position.buy_price := by
      intro hmem
      obtain ⟨pos, hpos, hpp⟩ := List.mem_map.1 hmem
      have : st.open_positions.any (fun q => q.buy_price == L) = true :=
        List.any_eq_true.2 ⟨pos, hpos, by simp [hpp]⟩
      rw [is_already_bought] at hL
      rw [hL] at this
      exact Bool.false_ne_true this
    simp only [List.map_append, List.map_cons, List.map_nil]
    rw [List.nodup_append]
    exact ⟨h, List.nodup_singleton L, by simpa using hnot⟩

/-- A tick preserves occupancy. -/
lemma occInv_tick (s a : ℚ) (levels : List ℚ) (st : SimState) (tp : ℕ × ℚ)
    (h : OccInv st) : OccInv (tick s a levels st tp) :=
  occInv_buyPhase a tp.1 tp.2 levels _ (occInv_sellPhase s a tp.1 tp.2 st h)

/-- The simulation fold preserves occupancy. -/
lemma occInv_fold (s a : ℚ) (levels : List ℚ) (prices : List (ℕ × ℚ)) :
    ∀ st : SimState, OccInv st → OccInv (prices.foldl (tick s a levels) st) := by
  induction prices with
  | nil => exact fun st h => h
  | cons tp rest ih => exact fun st h => ih _ (occInv_tick s a levels st tp h)

/-- **C3.** At every point during a run — after any number of full ticks,
after the sell phase of the next tick, and after its buy phase — no two
simultaneously open positions share a `buy_price`: an occupied level is
never bought again until its position is closed. -/
theorem c3_occupancy_invariant (s a : ℚ) (levels : List ℚ) (prices : List (ℕ × ℚ))
    (k : ℕ) (t : ℕ) (p : ℚ) :
    ((simulate s a levels (prices.take k)).open_positions.map Position.buy_price).Nodup ∧
    ((sellPhase s a t p (simulate s a levels (prices.take k))).open_positions.map
        Position.buy_price).Nodup ∧
    ((tick s a levels (simulate s a levels (prices.take k)) (t, p)).open_positions.map
        Position.buy_price).Nodup := by
  have h0 : OccInv (simulate s a levels (prices.take k)) :=
    occInv_fold s a levels (prices.take k) ⟨[], [], 0⟩ (by simp [OccInv])
  exact ⟨h0, occInv_sellPhase s a t p _ h0, occInv_tick s a levels _ (t, p) h0⟩

/-- **C4.** End-to-end scenario: bounds 16/100 to 164/1000 with spacing
2/1000 generate the grid `[0.16, 0.162, 0.164]`; running on prices
`[0.165, 0.159, 0.163, 0.166]` with trade amount 100 yields exactly the
four events BUY@0.16, SELL@0.162 (profit 5/4 = 1.25), BUY@0.164,
SELL@0.166 (profit 50/41 ≈ 1.2195), and total profit 405/164 ≈ 2.4695. -/
theorem c4_end_to_end :
    gridLevels (16/100) (164/1000) (2/1000) = [16/100, 162/1000, 164/1000] ∧
    simulate (2/1000) 100 (gridLevels (16/100) (164/1000) (2/1000))
        [(0, 165/1000), (1, 159/1000), (2, 163/1000), (3, 166/1000)]
      = ⟨[], [⟨1, Action.BUY, 16/100, 100⟩, ⟨2, Action.SELL, 162/1000, 5/4⟩,
              ⟨2, Action.BUY, 164/1000, 100⟩, ⟨3, Action.SELL, 166/1000, 50/41⟩],
          405/164⟩ ∧
    (5/4 : ℚ) = 2/1000 * 100 / (16/100) ∧
    (50/41 : ℚ) = 2/1000 * 100 / (164/1000) ∧
    (405/164 : ℚ) = 5/4 + 50/41 := by
  refine ⟨?_, ?_, ?_, ?_, ?_⟩ <;> with_unfolding_all rfl

/-- **C7.** If `spacing ≤ 0`, the program fails with `InvalidConfiguration`
before any simulation work: no grid is built, no tick is processed, no
trade log is produced. -/
theorem c7_spacing_guard (l u s a : ℚ) (prices : List (ℕ × ℚ)) (h : s ≤ 0) :
    runBot l u s a prices = Except.error ConfigError.InvalidConfiguration := by
  simp [runBot, h]

/-- Witness for `c7_spacing_guard` at spacing 0. -/
theorem c7_spacing_guard_witness :
    runBot (16/100) (18/100) 0 100 [(0, 1)] = Except.error ConfigError.InvalidConfiguration :=
  c7_spacing_guard (16/100) (18/100) 0 100 [(0, 1)] le_rfl

/-- With an empty grid, every tick leaves the initial state unchanged. -/
lemma simulate_nil_levels (s a : ℚ) (prices : List (ℕ × ℚ)) :
    simulate s a [] prices = ⟨[], [], 0⟩ := by
  induction prices with
  | nil => rfl
  | cons tp rest ih => exact ih

/-- Counterexample to **C8** as stated: with `lower_bound = 1 >
upper_bound = 0` (and positive spacing) the program does not fail with
`InvalidConfiguration`; it runs the simulation. -/
theorem c8_counterexample :
    runBot 1 0 (1/500) 100 [(0, 1/2)] ≠ Except.error ConfigError.InvalidConfiguration := by
  have h : runBot 1 0 (1/500) 100 [(0, 1/2)] = Except.ok ⟨[], [], 0⟩ := by
    with_unfolding_all rfl
  rw [h]
  exact fun hc => Except.noConfusion hc

/-- **C8 (amended).** If `lower_bound > upper_bound` (with positive
spacing), the core does not fail: the grid generation loop exits
immediately, producing an empty grid, and the run returns successfully with
an empty trade log and zero profit. -/
theorem c8_amended_empty_grid (l u s a : ℚ) (prices : List (ℕ × ℚ))
    (hs : 0 < s) (hul : u < l) :
    runBot l u s a prices = Except.ok ⟨[], [], 0⟩ := by
  have hg : gridLevels l u s = [] := by
    simp [gridLevels, numSteps, hul.not_le]
  rw [runBot, if_neg (not_le.2 hs), hg, simulate_nil_levels]

/-- Witness for `c8_amended_empty_grid` at bounds 1 > 0, spacing 1/500. -/
theorem c8_amended_empty_grid_witness :
    runBot 1 0 (1/500) 100 [(0, 1/2)] = Except.ok ⟨[], [], 0⟩ :=
  c8_amended_empty_grid 1 0 (1/500) 100 [(0, 1/2)] (by norm_num) (by norm_num)

/-- **C9.** Running the engine on an empty price series returns an empty
trade log and zero total profit, for any grid levels and trade amount. -/
theorem c9_empty_price_series (s a : ℚ) (levels : List ℚ) :
    simulate s a levels [] = ⟨[], [], 0⟩ := rfl

/-- Any event the sell phase adds to the log is a SELL whose recorded price
(`buy_price + spacing`) is at or below the tick's market price. -/
lemma sell_log_event_bound (s a : ℚ) (t : ℕ) (p : ℚ) (st : SimState) (e : TradeEvent)
    (he : e ∈ (sellPhase s a t p st).trade_log) (hnot : e ∉ st.trade_log) :
    e.action = Action.SELL ∧ e.price ≤ p := by
  rw [sellPhase_eq] at he
  simp only at he
  rcases List.mem_append.1 he with he | he
  · exact absurd he hnot
  · obtain ⟨pos, hpos, rfl⟩ := List.mem_map.1 he
    have := (List.mem_filter.1 hpos).2
    simp only [eligible, decide_eq_true_eq] at this
    exact ⟨rfl, this⟩

/-- Counterexample to **C10** as stated: with grid `[41/250]` and a single
tick at market price 41/250, the emitted BUY event records price 41/250 —
exactly the tick's observed market price.  So it is not true that the
recorded price always differs from the market price. -/
theorem c10_counterexample :
    (simulate (1/500) 100 [41/250] [(0, 41/250)]).trade_log
      = [⟨0, Action.BUY, 41/250, 100⟩] ∧
    (⟨0, Action.BUY, 41/250, 100⟩ : TradeEvent).price = 41/250 := by
  constructor
  · with_unfolding_all rfl
  · rfl

/-- **C10 (amended).** An emitted event's recorded price is derived from
the grid, not copied from the tick's market price, and need not equal it:
every BUY event added by a tick records the grid level at which the
position opens, which is at or above the tick's price, and every SELL event
records `buy_price + spacing`, which is at or below the tick's price —
strictly below in general, as in the concrete run of the second conjunct
(BUY records 16/100 at market 159/1000; SELL records 81/500 at market
163/1000), though it may also coincide with the market price. -/
theorem c10_amended_event_prices (s a : ℚ) (levels : List ℚ) (st : SimState)
    (t : ℕ) (p : ℚ) :
    (∀ e ∈ (tick s a levels st (t, p)).trade_log, e ∉ st.trade_log →
      (e.action = Action.BUY → p ≤ e.price ∧ e.price ∈ levels) ∧
      (e.action = Action.SELL → e.price ≤ p)) ∧
    (simulate (1/500) 100 [16/100] [(0, 159/1000), (1, 163/1000)]).trade_log
      = [⟨0, Action.BUY, 16/100, 100⟩, ⟨1, Action.SELL, 81/500, 5/4⟩] := by
  constructor
  · intro e he hnot
    rw [show tick s a levels st (t, p) = buyPhase a t p levels (sellPhase s a t p st)
      from rfl, buyPhase] at he
    set st1 := sellPhase s a t p st with hst1
    cases hf : levels.find?
        (fun level => decide (p ≤ level) && !is_already_bought st1.open_positions level) with
    | none =>
      rw [hf] at he
      simp only at he
      have := sell_log_event_bound s a t p st e he hnot
      refine ⟨fun hb => ?_, fun _ => this.2⟩
      rw [hb] at this
      exact absurd this.1 (by simp)
    | some L =>
      rw [hf] at he
      simp only at he
      rcases List.mem_append.1 he with he | he
      · have := sell_log_event_bound s a t p st e he hnot
        refine ⟨fun hb => ?_, fun _ => this.2⟩
        rw [hb] at this
        exact absurd this.1 (by simp)
      · simp only [List.mem_singleton] at he
        subst he
        refine ⟨fun _ => ⟨?_, ?_⟩, fun hs => by simp at hs⟩
        · have := List.find?_some hf
          simp only [Bool.and_eq_true, decide_eq_true_eq] at this
          exact this.1
        · exact List.mem_of_find?_eq_some hf
  · with_unfolding_all rfl

set_option maxRecDepth 4000 in
/-- Witness for `c10_amended_event_prices`: the BUY event of the tick at
price 159/1000 records price 16/100, at or above the market price and a
member of the grid. -/
theorem c10_amended_event_prices_witness :
    (159/1000 : ℚ) ≤ (⟨0, Action.BUY, 16/100, 100⟩ : TradeEvent).price ∧
    (⟨0, Action.BUY, 16/100, 100⟩ : TradeEvent).price ∈ [(16/100 : ℚ)] :=
  ((c10_amended_event_prices (1/500) 100 [16/100] ⟨[], [], 0⟩ 0 (159/1000)).1
    ⟨0, Action.BUY, 16/100, 100⟩ (by with_unfolding_all decide) (by simp)).1 rfl

/-- Round-half-to-even lands within half a unit of its argument. -/
lemma roundHE_bounds (q : ℚ) :
    q - 1/2 ≤ (roundHE q : ℚ) ∧ (roundHE q : ℚ) ≤ q + 1/2 := by
  have hfl : ((⌊q⌋ : ℤ) : ℚ) ≤ q := Int.floor_le q
  have hfu : q < (⌊q⌋ : ℚ) + 1 := Int.lt_floor_add_one q
  rw [roundHE]
  split_ifs with h1 h2 h3 <;> constructor <;> push_cast <;> linarith

/-- Rounding to 4 decimal places lands within `1/20000` of its argument. -/
lemma round4_bounds (q : ℚ) :
    q - 1/20000 ≤ round4 q ∧ round4 q ≤ q + 1/20000 := by
  obtain ⟨h1, h2⟩ := roundHE_bounds (q * 10000)
  have h10 : (0 : ℚ) < 10000 := by norm_num
  rw [round4]
  constructor
  · rw [le_div_iff₀ h10]
    linarith
  · rw [div_le_iff₀ h10]
    linarith

/-- Every iteration index of the grid loop keeps the running value at or
below the upper bound. -/
lemma numSteps_le (l u s : ℚ) (hs : 0 < s) (hlu : l ≤ u) (i : ℕ)
    (hi : i < numSteps l u s) : l + i * s ≤ u := by
  rw [numSteps, if_pos ⟨hs, hlu⟩] at hi
  have h0 : 0 ≤ ⌊(u - l) / s⌋ := Int.floor_nonneg.2 (div_nonneg (by linarith) hs.le)
  have hi' : (i : ℤ) ≤ ⌊(u - l) / s⌋ := by
    have hle : i ≤ (⌊(u - l) / s⌋).toNat := Nat.lt_succ_iff.1 hi
    omega
  have hq : (i : ℚ) ≤ (u - l) / s := by
    have := Int.le_floor.1 hi'
    exact_mod_cast this
  have hmul : (i : ℚ) * s ≤ ((u - l) / s) * s := mul_le_mul_of_nonneg_right hq hs.le
  have hcancel : ((u - l) / s) * s = u - l := div_mul_cancel₀ _ hs.ne'
  linarith

/-- Counterexample to **C6** as stated: the configuration
`lower = 0, upper = 1/50000, spacing = 1/100000` is valid (positive
spacing, lower ≤ upper), yet the generated grid is `[0, 0, 0]` — every
level rounds to 0 at 4 decimal places — which is neither strictly
ascending nor pairwise distinct. -/
theorem c6_counterexample :
    (0 < (1/100000 : ℚ) ∧ (0 : ℚ) ≤ 1/50000) ∧
    gridLevels 0 (1/50000) (1/100000) = [0, 0, 0] ∧
    ¬ (gridLevels 0 (1/50000) (1/100000)).Pairwise (· < ·) ∧
    ¬ (gridLevels 0 (1/50000) (1/100000)).Nodup := by
  have hg : gridLevels 0 (1/50000) (1/100000) = [0, 0, 0] := by
    with_unfolding_all rfl
  refine ⟨⟨by norm_num, by norm_num⟩, hg, ?_, ?_⟩
  · rw [hg]
    intro h
    simp [List.pairwise_cons] at h
  · rw [hg]
    simp

/-- **C6 (amended).** For every valid configuration (`spacing > 0`,
`lower ≤ upper`): every produced level lies between the bounds within the
4-decimal rounding tolerance `1/20000`, and consecutive levels differ from
`spacing` by at most the combined rounding tolerance `1/10000`.  The
strict-ascent and pairwise-distinctness parts of the claim require the
additional hypothesis `spacing > 1/10000` (one rounding unit): below that
the rounding rule can collapse neighbouring levels, as the counterexample
shows. -/
theorem c6_amended_grid (l u s : ℚ) (hs : 0 < s) (hlu : l ≤ u) :
    (∀ L ∈ gridLevels l u s, l - 1/20000 ≤ L ∧ L ≤ u + 1/20000) ∧
    (gridLevels l u s).Chain' (fun x y => |y - x - s| ≤ 1/10000) ∧
    (1/10000 < s → (gridLevels l u s).Pairwise (· < ·) ∧ (gridLevels l u s).Nodup) := by
  have hlen : (gridLevels l u s).length = numSteps l u s := by
    rw [gridLevels, List.length_map, List.length_range]
  have hget : ∀ (i : ℕ) (h : i < (gridLevels l u s).length),
      (gridLevels l u s).get ⟨i, h⟩ = round4 (l + i * s) := by
    intro i h
    rw [List.get_eq_getElem]
    simp only [gridLevels, List.getElem_map, List.getElem_range]
  have hstep : ∀ i j : ℕ, i < j → j < numSteps l u s → 1/10000 < s →
      round4 (l + i * s) < round4 (l + j * s) := by
    intro i j hij _ hs4
    obtain ⟨ha1, ha2⟩ := round4_bounds (l + i * s)
    obtain ⟨hb1, hb2⟩ := round4_bounds (l + j * s)
    have hij' : (i : ℚ) + 1 ≤ (j : ℚ) := by exact_mod_cast hij
    have hmul : ((i : ℚ) + 1) * s ≤ (j : ℚ) * s :=
      mul_le_mul_of_nonneg_right hij' hs.le
    nlinarith
  refine ⟨?_, ?_, ?_⟩
  · intro L hL
    obtain ⟨⟨i, hi⟩, rfl⟩ := List.mem_iff_get.1 hL
    rw [hget i hi]
    rw [hlen] at hi
    obtain ⟨hr1, hr2⟩ := round4_bounds (l + i * s)
    have his : (0 : ℚ) ≤ i * s := mul_nonneg (Nat.cast_nonneg i) hs.le
    have hup : l + i * s ≤ u := numSteps_le l u s hs hlu i hi
    exact ⟨by linarith, by linarith⟩
  · rw [List.chain'_iff_get]
    intro i hlt
    rw [hget i (by omega), hget (i + 1) (by omega)]
    obtain ⟨ha1, ha2⟩ := round4_bounds (l + i * s)
    obtain ⟨hb1, hb2⟩ := round4_bounds (l + (i + 1 : ℕ) * s)
    rw [abs_le]
    push_cast at hb1 hb2 ⊢
    constructor <;> linarith
  · intro hs4
    have hpw : (gridLevels l u s).Pairwise (· < ·) := by
      rw [List.pairwise_iff_getElem]
      intro i j hi hj hij
      have e1 : (gridLevels l u s)[i] = round4 (l + i * s) := hget i hi
      have e2 : (gridLevels l u s)[j] = round4 (l + j * s) := hget j hj
      rw [e1, e2]
      exact hstep i j hij (hlen ▸ hj) hs4
    exact ⟨hpw, hpw.imp ne_of_lt⟩

/-- Witness for `c6_amended_grid` at the valid configuration
`(16/100, 164/1000, 2/1000)`: the first level is in bounds and the grid is
strictly ascending. -/
theorem c6_amended_grid_witness :
    ((16:ℚ)/100 - 1/20000 ≤ 16/100 ∧ (16:ℚ)/100 ≤ 164/1000 + 1/20000) ∧
    (gridLevels (16/100) (164/1000) (2/1000)).Pairwise (· < ·) :=
  ⟨(c6_amended_grid (16/100) (164/1000) (2/1000) (by norm_num) (by norm_num)).1
      (16/100) (by with_unfolding_all decide),
   ((c6_amended_grid (16/100) (164/1000) (2/1000) (by norm_num) (by norm_num)).2.2
      (by norm_num)).1⟩

end GridBot
